import Mathlib

/-!
Verification of the NYC apartment tracker's listing engine.

The definitions below are a shallow embedding of the Python source
(`apartment_tracker.py`, `models.py`, `db.py`): price parsing, the
scrape-side dedup/price/area filter pipeline, the stored-listing model
with price-drop detection and the stale-listing sweep, the value-score
computation, the per-user match predicate, and the notification log.
Machine floats are modelled as exact rationals; Python `round(x, 1)`
is modelled as round-half-to-even at one decimal.
-/

namespace ApartmentTracker

/-! ### Price parsing (`parse_price`) -/

/-- Digits of a char run interpreted as a base-10 natural (`int(...)`). -/
def digitsToNat (cs : List Char) : Nat :=
  cs.foldl (fun n c => 10 * n + (c.toNat - 48)) 0

/-- `price_str.replace(",", "")`. -/
def stripCommas (cs : List Char) : List Char :=
  cs.filter (fun c => c ≠ ',')

/-- First maximal run of digit characters (`re.search(r"[\d,]+", ...)` after the
commas have been removed, so the pattern can only match digit runs). -/
def firstDigitRun (cs : List Char) : List Char :=
  (cs.dropWhile (fun c => !c.isDigit)).takeWhile (fun c => c.isDigit)

/-- `parse_price`: extract the integer value of the first digit run of the
comma-stripped string; `none` when the string has no digits. -/
def parse_price (s : String) : Option Nat :=
  let run := firstDigitRun (stripCommas s.data)
  if run.isEmpty then none else some (digitsToNat run)

/-! ### Helper lemmas about digit runs -/

theorem dropWhile_append_all {p : Char → Bool} {a : List Char} (l : List Char)
    (h : ∀ c ∈ a, p c = true) : (a ++ l).dropWhile p = l.dropWhile p := by
  induction a with
  | nil => rfl
  | cons c cs ih =>
      have hc : p c = true := h c (List.mem_cons_self c cs)
      simp [List.dropWhile, hc]
      exact ih (fun x hx => h x (List.mem_cons_of_mem c hx))

theorem takeWhile_append_run {p : Char → Bool} {r b : List Char}
    (hr : ∀ c ∈ r, p c = true)
    (hb : ∀ c, b.head? = some c → p c = false) :
    (r ++ b).takeWhile p = r := by
  induction r with
  | nil =>
      cases b with
      | nil => rfl
      | cons c cs =>
          have := hb c rfl
          simp [List.takeWhile, this]
  | cons c cs ih =>
      have hc : p c = true := hr c (List.mem_cons_self c cs)
      simp [List.takeWhile, hc]
      exact ih (fun x hx => hr x (List.mem_cons_of_mem c hx))

theorem dropWhile_all {p : Char → Bool} {a : List Char}
    (h : ∀ c ∈ a, p c = true) : a.dropWhile p = [] := by
  have := dropWhile_append_all (p := p) (a := a) [] h
  simpa using this

/-- C6 helper: no digits anywhere means the first digit run is empty. -/
theorem firstDigitRun_eq_nil {cs : List Char}
    (h : ∀ c ∈ cs, c.isDigit = false) : firstDigitRun cs = [] := by
  unfold firstDigitRun
  have hdrop : cs.dropWhile (fun c => !c.isDigit) = [] :=
    dropWhile_all (fun c hc => by simp [h c hc])
  rw [hdrop]
  rfl

/-- C6 helper: the first digit run of `a ++ r ++ b` is `r` when `a` has no
digits, `r` is a nonempty digit run and `b` does not start with a digit. -/
theorem firstDigitRun_split {a r b : List Char}
    (ha : ∀ c ∈ a, c.isDigit = false) (hr : r ≠ [])
    (hr2 : ∀ c ∈ r, c.isDigit = true)
    (hb : ∀ c, b.head? = some c → c.isDigit = false) :
    firstDigitRun (a ++ r ++ b) = r := by
  unfold firstDigitRun
  rw [List.append_assoc]
  rw [dropWhile_append_all (r ++ b) (fun c hc => by simp [ha c hc])]
  cases r with
  | nil => exact absurd rfl hr
  | cons c cs =>
      have hc : c.isDigit = true := hr2 c (List.mem_cons_self c cs)
      simp only [List.cons_append, List.dropWhile, hc, Bool.not_true]
      exact takeWhile_append_run (r := c :: cs) (b := b) hr2 hb

/-- **C6.** `parse_price` returns none exactly on digit-free strings; on a
string whose comma-stripped form is a digit run `r` preceded by digit-free
text and followed by text not starting with a digit, it returns the value of
`r`; in particular "$12,500" parses to 12500 and "From $2,800/mo" to 2800. -/
theorem C6_parse_price :
    (∀ s : String, (∀ c ∈ s.data, c.isDigit = false) → parse_price s = none) ∧
    (∀ (s : String) (a r b : List Char),
        stripCommas s.data = a ++ r ++ b →
        (∀ c ∈ a, c.isDigit = false) → r ≠ [] →
        (∀ c ∈ r, c.isDigit = true) →
        (∀ c, b.head? = some c → c.isDigit = false) →
        parse_price s = some (digitsToNat r)) ∧
    parse_price "$12,500" = some 12500 ∧
    parse_price "From $2,800/mo" = some 2800 := by
  refine ⟨?_, ?_, by decide, by decide⟩
  · intro s h
    unfold parse_price
    have hall : ∀ c ∈ stripCommas s.data, c.isDigit = false := by
      intro c hc
      exact h c (List.mem_of_mem_filter hc)
    simp [firstDigitRun_eq_nil hall]
  · intro s a r b hsplit ha hr hr2 hb
    unfold parse_price
    rw [hsplit, firstDigitRun_split ha hr hr2 hb]
    cases r with
    | nil => exact absurd rfl hr
    | cons c cs => rfl

/-- Witness for C6 at a concrete input: "x$47a9" splits as "x$" ++ "47" ++ "a9". -/
theorem C6_witness : parse_price "x$47a9" = some (digitsToNat ['4', '7']) :=
  C6_parse_price.2.1 "x$47a9" ['x', '$'] ['4', '7'] ['a', '9']
    (by decide) (by decide) (by decide) (by decide) (by decide)

/-! ### Python rounding, modelled exactly on the rationals

Python's `round(x, 1)` rounds to the nearest multiple of 0.1, breaking ties
towards an even last digit (banker's rounding). -/

/-- Round a rational to the nearest integer, ties to even. -/
def roundHalfEven (x : ℚ) : ℤ :=
  if x - (⌊x⌋ : ℚ) < 1/2 then ⌊x⌋
  else if 1/2 < x - (⌊x⌋ : ℚ) then ⌊x⌋ + 1
  else if ⌊x⌋ % 2 = 0 then ⌊x⌋ else ⌊x⌋ + 1

/-- Python `round(x, 1)` on exact rationals. -/
def pyRound1 (x : ℚ) : ℚ :=
  (roundHalfEven (10 * x) : ℚ) / 10

theorem roundHalfEven_ge_floor (x : ℚ) : ⌊x⌋ ≤ roundHalfEven x := by
  unfold roundHalfEven
  split_ifs <;> omega

theorem roundHalfEven_le_floor_succ (x : ℚ) : roundHalfEven x ≤ ⌊x⌋ + 1 := by
  unfold roundHalfEven
  split_ifs <;> omega

theorem roundHalfEven_mono {x y : ℚ} (h : x ≤ y) :
    roundHalfEven x ≤ roundHalfEven y := by
  rcases lt_or_eq_of_le (Int.floor_le_floor h) with hf | hf
  · calc roundHalfEven x ≤ ⌊x⌋ + 1 := roundHalfEven_le_floor_succ x
      _ ≤ ⌊y⌋ := by omega
      _ ≤ roundHalfEven y := roundHalfEven_ge_floor y
  · -- same floor: compare the fractional parts
    unfold roundHalfEven
    rw [← hf]
    have hfr : x - (⌊x⌋ : ℚ) ≤ y - (⌊x⌋ : ℚ) := by linarith
    split_ifs <;> first | omega | linarith

theorem pyRound1_mono {x y : ℚ} (h : x ≤ y) : pyRound1 x ≤ pyRound1 y := by
  unfold pyRound1
  have : (10 : ℚ) * x ≤ 10 * y := by linarith
  have hr := roundHalfEven_mono this
  have : (roundHalfEven (10 * x) : ℚ) ≤ (roundHalfEven (10 * y) : ℚ) := by
    exact_mod_cast hr
  linarith

theorem roundHalfEven_intCast (n : ℤ) : roundHalfEven (n : ℚ) = n := by
  unfold roundHalfEven
  rw [Int.floor_intCast]
  norm_num

/-- Evaluate `pyRound1` when ten times the argument is an integer. -/
theorem pyRound1_eq_of_int {x : ℚ} {n : ℤ} (h : 10 * x = (n : ℚ)) :
    pyRound1 x = (n : ℚ) / 10 := by
  unfold pyRound1
  rw [h, roundHalfEven_intCast]

/-! ### Stored listing entries and price-drop detection -/

/-- A tracked-listing record as kept in `seen_listings` (one per URL). The
timestamps are abstract integers; a missing or unparseable timestamp is
`none`. -/
structure SeenEntry where
  price : String
  address : String
  neighborhood : String
  lastScraped : Option Int
  firstSeen : Option Int
  latitude : Option ℚ
  longitude : Option ℚ
  deriving DecidableEq, Repr

/-- The result dict of `detect_price_change`. -/
structure PriceChange where
  old_price : Nat
  new_price : Int
  savings : Int
  pct : ℚ
  deriving DecidableEq, Repr

/-- `detect_price_change(seen_entry, current_price)`: compare the stored price
string against the freshly observed price; `none` when the stored price is
unparseable, the observed price is absent, or observed ≥ stored. -/
def detect_price_change (seen_entry : SeenEntry) (current_price : Option Int) :
    Option PriceChange :=
  match parse_price seen_entry.price with
  | none => none
  | some old_price =>
    match current_price with
    | none => none
    | some cur =>
      if (old_price : Int) ≤ cur then none
      else
        let savings : Int := (old_price : Int) - cur
        let pct : ℚ := pyRound1 ((savings : ℚ) / (old_price : ℚ) * 100)
        some ⟨old_price, cur, savings, pct⟩

/-- **C1 counterexample.** The claim says `detect_price_change` is non-none
iff `0 < P' < P`; but for stored price "$3,000" (P = 3000) and observed price
P' = 0 the code returns a change record even though `0 < P'` fails. -/
theorem C1_counterexample :
    parse_price "$3,000" = some 3000 ∧
    ¬ (0 < (0 : Int)) ∧
    detect_price_change ⟨"$3,000", "", "", none, none, none, none⟩ (some 0) =
      some ⟨3000, 0, 3000, 100⟩ := by
  refine ⟨by decide, by decide, ?_⟩
  have hp : parse_price (SeenEntry.mk "$3,000" "" "" none none none none).price =
      some 3000 := by decide
  unfold detect_price_change
  rw [hp]
  norm_num
  rw [pyRound1_eq_of_int (n := 1000) (by norm_num)]
  norm_num

/-- **C1 (amended).** For a nonnegative observed price P' (every parsed price
is nonnegative), `detect_price_change` is non-none iff the stored price
parses to some P with P' < P; when non-none the fields are
`old_price = P`, `new_price = P'`, `savings = P - P'` and
`pct = round(100·savings/P, 1)`; it returns none when the stored price is
unparseable. -/
theorem C1_detect_price_change :
    ∀ (e : SeenEntry) (cur : Int), 0 ≤ cur →
      ((detect_price_change e (some cur)).isSome ↔
        ∃ P : Nat, parse_price e.price = some P ∧ cur < (P : Int)) ∧
      (∀ (P : Nat) (r : PriceChange), parse_price e.price = some P →
        detect_price_change e (some cur) = some r →
        r.old_price = P ∧ r.new_price = cur ∧ r.savings = (P : Int) - cur ∧
        r.pct = pyRound1 (100 * ((P : Int) - cur : ℚ) / (P : ℚ))) ∧
      (parse_price e.price = none → detect_price_change e (some cur) = none) := by
  intro e cur _hcur
  refine ⟨?_, ?_, ?_⟩
  · constructor
    · intro h
      unfold detect_price_change at h
      cases hp : parse_price e.price with
      | none => rw [hp] at h; simp at h
      | some P =>
          rw [hp] at h
          by_cases hle : (P : Int) ≤ cur
          · simp [hle] at h
          · exact ⟨P, rfl, by omega⟩
    · rintro ⟨P, hp, hlt⟩
      unfold detect_price_change
      rw [hp]
      have hle : ¬ (P : Int) ≤ cur := by omega
      simp [hle]
  · intro P r hp hr
    unfold detect_price_change at hr
    rw [hp] at hr
    by_cases hle : (P : Int) ≤ cur
    · simp [hle] at hr
    · simp only [hle, if_false, Option.some.injEq] at hr
      subst hr
      refine ⟨rfl, rfl, rfl, ?_⟩
      show pyRound1 ((((P : Int) - cur : Int) : ℚ) / (P : ℚ) * 100) = _
      congr 1
      push_cast
      ring
  · intro hp
    unfold detect_price_change
    rw [hp]

/-- Witness for C1 at stored "$3,000", observed 2800. -/
theorem C1_witness :
    ((detect_price_change ⟨"$3,000", "", "", none, none, none, none⟩
        (some 2800)).isSome ↔
      ∃ P : Nat, parse_price "$3,000" = some P ∧ (2800 : Int) < (P : Int)) ∧
    (∀ (P : Nat) (r : PriceChange), parse_price "$3,000" = some P →
      detect_price_change ⟨"$3,000", "", "", none, none, none, none⟩
          (some 2800) = some r →
      r.old_price = P ∧ r.new_price = 2800 ∧ r.savings = (P : Int) - 2800 ∧
      r.pct = pyRound1 (100 * ((P : Int) - 2800 : ℚ) / (P : ℚ))) ∧
    (parse_price "$3,000" = none →
      detect_price_change ⟨"$3,000", "", "", none, none, none, none⟩
        (some 2800) = none) :=
  C1_detect_price_change ⟨"$3,000", "", "", none, none, none, none⟩ 2800
    (by decide)

/-! ### Raw listings and the scrape-side filter pipeline -/

/-- A raw listing record as produced by `parse_single_card`, with the optional
coordinates added during enrichment. -/
structure Listing where
  url : String
  address : String
  price : String
  beds : String
  baths : String
  sqft : String
  neighborhood : String
  image_url : String
  latitude : Option ℚ
  longitude : Option ℚ
  deriving DecidableEq, Repr

/-- `NEIGHBORHOOD_ALIASES`: search slug → the neighborhood names StreetEasy
may legitimately attach to listings of that area. -/
def NEIGHBORHOOD_ALIASES : List (String × List String) := [
  ("east-village", ["East Village"]),
  ("west-village", ["West Village"]),
  ("upper-west-side", ["Upper West Side", "Manhattan Valley", "Lincoln Square"]),
  ("chelsea", ["Chelsea", "West Chelsea"]),
  ("les", ["Lower East Side", "Two Bridges", "Chinatown"]),
  ("upper-east-side", ["Upper East Side", "Yorkville", "Carnegie Hill", "Lenox Hill"]),
  ("hells-kitchen", ["Hell's Kitchen", "Midtown West"]),
  ("murray-hill", ["Murray Hill", "Kips Bay"]),
  ("gramercy-park", ["Gramercy Park", "Gramercy", "Kips Bay"]),
  ("flatiron", ["Flatiron", "NoMad"]),
  ("kips-bay", ["Kips Bay"]),
  ("greenwich-village", ["Greenwich Village"]),
  ("soho", ["SoHo"]),
  ("tribeca", ["Tribeca"]),
  ("financial-district", ["Financial District", "FiDi"]),
  ("williamsburg", ["Williamsburg", "East Williamsburg"]),
  ("greenpoint", ["Greenpoint"]),
  ("park-slope", ["Park Slope"]),
  ("bushwick", ["Bushwick"]),
  ("bed-stuy", ["Bedford-Stuyvesant", "Bed-Stuy"]),
  ("astoria", ["Astoria"]),
  ("long-island-city", ["Long Island City"])]

/-- `NEIGHBORHOOD_ALIASES.get(neighborhood)`. -/
def lookupAliases (neighborhood : String) : Option (List String) :=
  (NEIGHBORHOOD_ALIASES.find? (fun p => p.1 == neighborhood)).map Prod.snd

/-- The dedup loop of `scrape_neighborhood`: keep the first occurrence of
each URL, tracking the set of URLs already seen. -/
def dedupGo (seen_urls : List String) : List Listing → List Listing
  | [] => []
  | l :: ls =>
      if l.url ∈ seen_urls then dedupGo seen_urls ls
      else l :: dedupGo (l.url :: seen_urls) ls

/-- Deduplicate raw listings by URL (featured listings recur across pages). -/
def dedup_listings (raw : List Listing) : List Listing := dedupGo [] raw

/-- Drop listings whose parsed price exceeds the configured maximum;
unparseable prices pass through. -/
def price_filter (max_price : Nat) (ls : List Listing) : List Listing :=
  ls.filter (fun l =>
    match parse_price l.price with
    | some p => decide (p ≤ max_price)
    | none => true)

/-- The area-membership stage: when the slug has a (nonempty) alias set, keep
only listings whose neighborhood label is in it. -/
def area_filter (neighborhood : String) (filtered : List Listing) : List Listing :=
  match lookupAliases neighborhood with
  | none => filtered
  | some allowed =>
      if allowed.isEmpty then filtered
      else filtered.filter (fun l => allowed.contains l.neighborhood)

/-- The pure part of `scrape_neighborhood`: dedup, then the price ceiling,
then area membership. -/
def filter_pipeline (neighborhood : String) (max_price : Nat)
    (raw : List Listing) : List Listing :=
  area_filter neighborhood (price_filter max_price (dedup_listings raw))

/-- Every configured alias set is nonempty and contains no empty label. -/
theorem aliases_wf : ∀ p ∈ NEIGHBORHOOD_ALIASES, p.2 ≠ [] ∧ "" ∉ p.2 := by
  decide

/-- **C2.** For every configured search-area key, the area-membership stage
returns a subsequence of its input in which every record's neighborhood label
belongs to the area's alias set, and no record with an empty label survives. -/
theorem C2_area_membership :
    ∀ (key : String) (allowed : List String) (ls : List Listing),
      lookupAliases key = some allowed →
      (area_filter key ls).Sublist ls ∧
      ∀ l ∈ area_filter key ls, l.neighborhood ∈ allowed ∧ l.neighborhood ≠ "" := by
  intro key allowed ls hkey
  have hmem : (key, allowed) ∈ NEIGHBORHOOD_ALIASES := by
    unfold lookupAliases at hkey
    cases hfind : NEIGHBORHOOD_ALIASES.find? (fun p => p.1 == key) with
    | none => rw [hfind] at hkey; exact Option.noConfusion hkey
    | some p =>
        rw [hfind] at hkey
        have h2 : p.2 = allowed := Option.some.inj hkey
        have hp := List.find?_some hfind
        have hpm : p ∈ NEIGHBORHOOD_ALIASES := List.mem_of_find?_eq_some hfind
        have h1 : p.1 = key := by simpa using hp
        have : p = (key, allowed) := by
          cases p
          simp_all
        rw [← this]
        exact hpm
  obtain ⟨hne, hnempty⟩ := aliases_wf (key, allowed) hmem
  have hfilter : area_filter key ls =
      ls.filter (fun l => allowed.contains l.neighborhood) := by
    unfold area_filter
    rw [hkey]
    have hfalse : allowed.isEmpty = false := by
      cases allowed with
      | nil => exact absurd rfl hne
      | cons a as => rfl
    simp [hfalse]
  rw [hfilter]
  refine ⟨List.filter_sublist ls, ?_⟩
  intro l hl
  rw [List.mem_filter] at hl
  have hc : l.neighborhood ∈ allowed := by
    have := hl.2
    simpa using this
  exact ⟨hc, fun he => hnempty (he ▸ hc)⟩

/-- Witness for C2: the east-village alias set applied to a two-record list. -/
theorem C2_witness :
    (area_filter "east-village"
        [⟨"u1", "a", "$3,000", "1 bed", "1 bath", "N/A", "East Village", "", none, none⟩,
         ⟨"u2", "b", "$2,500", "1 bed", "1 bath", "N/A", "", "", none, none⟩]).Sublist
      [⟨"u1", "a", "$3,000", "1 bed", "1 bath", "N/A", "East Village", "", none, none⟩,
       ⟨"u2", "b", "$2,500", "1 bed", "1 bath", "N/A", "", "", none, none⟩] ∧
    ∀ l ∈ area_filter "east-village"
        [⟨"u1", "a", "$3,000", "1 bed", "1 bath", "N/A", "East Village", "", none, none⟩,
         ⟨"u2", "b", "$2,500", "1 bed", "1 bath", "N/A", "", "", none, none⟩],
      l.neighborhood ∈ ["East Village"] ∧ l.neighborhood ≠ "" :=
  C2_area_membership "east-village" ["East Village"]
    [⟨"u1", "a", "$3,000", "1 bed", "1 bath", "N/A", "East Village", "", none, none⟩,
     ⟨"u2", "b", "$2,500", "1 bed", "1 bath", "N/A", "", "", none, none⟩]
    (by decide)

theorem dedupGo_mem_absorb {x : Listing} {s : List String} (hx : x.url ∈ s) :
    ∀ (n : Nat) (ls : List Listing),
      dedupGo s (List.replicate n x ++ ls) = dedupGo s ls := by
  intro n
  induction n with
  | zero => intro ls; rfl
  | succ k ih =>
      intro ls
      rw [List.replicate_succ, List.cons_append]
      simp only [dedupGo, if_pos hx]
      exact ih ls

theorem dedupGo_idem (ls : List Listing) :
    ∀ s, dedupGo s (dedupGo s ls) = dedupGo s ls := by
  induction ls with
  | nil => intro s; rfl
  | cons l ls ih =>
      intro s
      by_cases h : l.url ∈ s
      · simp only [dedupGo, if_pos h]
        exact ih s
      · simp only [dedupGo, if_neg h]
        congr 1
        exact ih (l.url :: s)

theorem dedupGo_dup (x : Listing) (n : Nat) (l₂ : List Listing) :
    ∀ (l₁ : List Listing) (s : List String),
      (x.url ∈ l₁.map Listing.url ∨ x.url ∈ s) →
      dedupGo s (l₁ ++ (List.replicate n x ++ l₂)) = dedupGo s (l₁ ++ l₂) := by
  intro l₁
  induction l₁ with
  | nil =>
      intro s h
      rcases h with h | h
      · simp at h
      · simpa using dedupGo_mem_absorb h n l₂
  | cons y ys ih =>
      intro s h
      have hnext : ∀ s' : List String, y.url ∈ s' →
          (x.url ∈ ys.map Listing.url ∨ x.url ∈ s') →
          dedupGo s' (ys ++ (List.replicate n x ++ l₂)) = dedupGo s' (ys ++ l₂) :=
        fun s' _ h' => ih s' h'
      by_cases hy : y.url ∈ s
      · simp only [List.cons_append, dedupGo, if_pos hy]
        apply ih
        rcases h with h | h
        · rw [List.map_cons, List.mem_cons] at h
          rcases h with h | h
          · right; rw [h]; exact hy
          · left; exact h
        · right; exact h
      · simp only [List.cons_append, dedupGo, if_neg hy]
        congr 1
        apply ih
        rcases h with h | h
        · rw [List.map_cons, List.mem_cons] at h
          rcases h with h | h
          · right; rw [h]; exact List.mem_cons_self _ _
          · left; exact h
        · right; exact List.mem_cons_of_mem _ h

/-- **C7.** The dedup–price–area pipeline is insensitive to duplicates: it
agrees with itself on the deduplicated input, and inserting N extra copies of
a record after its first occurrence leaves the output unchanged. -/
theorem C7_pipeline_dedup_idempotent :
    (∀ (key : String) (mp : Nat) (raw : List Listing),
       filter_pipeline key mp raw = filter_pipeline key mp (dedup_listings raw)) ∧
    (∀ (key : String) (mp : Nat) (l₁ l₂ : List Listing) (x : Listing) (n : Nat),
       x.url ∈ l₁.map Listing.url →
       filter_pipeline key mp (l₁ ++ List.replicate n x ++ l₂) =
         filter_pipeline key mp (l₁ ++ l₂)) := by
  constructor
  · intro key mp raw
    unfold filter_pipeline dedup_listings
    rw [dedupGo_idem]
  · intro key mp l₁ l₂ x n h
    unfold filter_pipeline dedup_listings
    rw [List.append_assoc, dedupGo_dup x n l₂ l₁ [] (Or.inl h)]

/-- Witness for C7: duplicating the first record twice does not change the
pipeline output. -/
theorem C7_witness :
    filter_pipeline "east-village" 4000
      ([⟨"u1", "a", "$3,000", "1 bed", "1 bath", "N/A", "East Village", "", none, none⟩] ++
        List.replicate 2
          ⟨"u1", "a", "$3,000", "1 bed", "1 bath", "N/A", "East Village", "", none, none⟩ ++
        [⟨"u2", "b", "$2,500", "1 bed", "1 bath", "N/A", "East Village", "", none, none⟩]) =
    filter_pipeline "east-village" 4000
      ([⟨"u1", "a", "$3,000", "1 bed", "1 bath", "N/A", "East Village", "", none, none⟩] ++
        [⟨"u2", "b", "$2,500", "1 bed", "1 bath", "N/A", "East Village", "", none, none⟩]) :=
  C7_pipeline_dedup_idempotent.2 "east-village" 4000
    [⟨"u1", "a", "$3,000", "1 bed", "1 bath", "N/A", "East Village", "", none, none⟩]
    [⟨"u2", "b", "$2,500", "1 bed", "1 bath", "N/A", "East Village", "", none, none⟩]
    ⟨"u1", "a", "$3,000", "1 bed", "1 bath", "N/A", "East Village", "", none, none⟩
    2 (by decide)

/-! ### Geographic bounds (`is_within_geo_bounds`) -/

/-- A configured bounding box; either edge may be missing. -/
structure GeoBounds where
  west_longitude : Option ℚ
  east_longitude : Option ℚ
  deriving DecidableEq, Repr

/-- The `search` section of the scraper config, as used by the engine. -/
structure Config where
  max_price : Nat
  geo_bounds : Option GeoBounds
  deriving DecidableEq, Repr

/-- `is_within_geo_bounds(longitude, config)`: true when within bounds, when
no bounds are configured, or when no longitude is provided. -/
def is_within_geo_bounds (longitude : Option ℚ) (config : Config) : Bool :=
  match longitude with
  | none => true
  | some lon =>
    match config.geo_bounds with
    | none => true
    | some bounds =>
      match bounds.west_longitude, bounds.east_longitude with
      | some west, some east => decide (west ≤ lon ∧ lon ≤ east)
      | some _, none => true
      | none, _ => true

/-- **C10.** `is_within_geo_bounds` returns true whenever the longitude is
absent, no bounds object is configured, or either edge is missing; a false
result requires both edges present and a longitude strictly outside the
closed interval they delimit. -/
theorem C10_is_within_geo_bounds :
    ∀ (lon : Option ℚ) (cfg : Config),
      ((lon = none ∨ cfg.geo_bounds = none ∨
        (∃ b, cfg.geo_bounds = some b ∧
          (b.west_longitude = none ∨ b.east_longitude = none))) →
        is_within_geo_bounds lon cfg = true) ∧
      (is_within_geo_bounds lon cfg = false →
        ∃ (l w e : ℚ) (b : GeoBounds), lon = some l ∧ cfg.geo_bounds = some b ∧
          b.west_longitude = some w ∧ b.east_longitude = some e ∧
          (l < w ∨ e < l)) := by
  rintro lon ⟨mp, gb⟩
  constructor
  · rintro (rfl | h | ⟨b, hb, hwe⟩)
    · rfl
    · have h' : gb = none := h
      subst h'
      cases lon with
      | none => rfl
      | some l => rfl
    · have hb' : gb = some b := hb
      subst hb'
      obtain ⟨wo, eo⟩ := b
      rcases hwe with h' | h'
      · have hw : wo = none := h'
        subst hw
        cases lon with
        | none => rfl
        | some l => rfl
      · have he : eo = none := h'
        subst he
        cases lon with
        | none => rfl
        | some l =>
            cases wo with
            | none => rfl
            | some w => rfl
  · intro hfalse
    cases lon with
    | none => exact absurd hfalse (by simp [is_within_geo_bounds])
    | some l =>
      cases gb with
      | none => exact absurd hfalse (by simp [is_within_geo_bounds])
      | some b =>
          obtain ⟨wo, eo⟩ := b
          cases wo with
          | none => exact absurd hfalse (by simp [is_within_geo_bounds])
          | some w =>
            cases eo with
            | none => exact absurd hfalse (by simp [is_within_geo_bounds])
            | some e =>
                refine ⟨l, w, e, ⟨some w, some e⟩, rfl, rfl, rfl, rfl, ?_⟩
                have hne : ¬ (w ≤ l ∧ l ≤ e) := by
                  simpa [is_within_geo_bounds] using hfalse
                rcases not_and_or.mp hne with h' | h'
                · exact Or.inl (lt_of_not_le h')
                · exact Or.inr (lt_of_not_le h')

/-- Witness for C10: a missing longitude passes a fully configured box. -/
theorem C10_witness :
    is_within_geo_bounds none ⟨4000, some ⟨some (-74), some (-73)⟩⟩ = true :=
  (C10_is_within_geo_bounds none ⟨4000, some ⟨some (-74), some (-73)⟩⟩).1
    (Or.inl rfl)

/-! ### User preferences and the per-user match predicate (`models.py`) -/

/-- `VALID_NEIGHBORHOODS`: every supported StreetEasy slug with its display
name. -/
def VALID_NEIGHBORHOODS : List (String × String) := [
  ("battery-park-city", "Battery Park City"),
  ("carnegie-hill", "Carnegie Hill"),
  ("chelsea", "Chelsea"),
  ("chinatown", "Chinatown"),
  ("civic-center", "Civic Center"),
  ("east-village", "East Village"),
  ("financial-district", "Financial District"),
  ("flatiron", "Flatiron"),
  ("fulton-seaport", "Fulton / Seaport"),
  ("gramercy-park", "Gramercy Park"),
  ("greenwich-village", "Greenwich Village"),
  ("hells-kitchen", "Hell's Kitchen"),
  ("hudson-yards", "Hudson Yards"),
  ("kips-bay", "Kips Bay"),
  ("lenox-hill", "Lenox Hill"),
  ("les", "Lower East Side"),
  ("little-italy", "Little Italy"),
  ("manhattan-valley", "Manhattan Valley"),
  ("midtown", "Midtown"),
  ("midtown-east", "Midtown East"),
  ("midtown-south", "Midtown South"),
  ("midtown-west", "Midtown West"),
  ("murray-hill", "Murray Hill"),
  ("noho", "NoHo"),
  ("nolita", "Nolita"),
  ("nomad", "NoMad"),
  ("soho", "SoHo"),
  ("stuyvesant-town", "Stuyvesant Town"),
  ("tribeca", "Tribeca"),
  ("two-bridges", "Two Bridges"),
  ("upper-east-side", "Upper East Side"),
  ("upper-west-side", "Upper West Side"),
  ("west-village", "West Village"),
  ("yorkville", "Yorkville"),
  ("bay-ridge", "Bay Ridge"),
  ("bed-stuy", "Bedford-Stuyvesant"),
  ("boerum-hill", "Boerum Hill"),
  ("brooklyn-heights", "Brooklyn Heights"),
  ("bushwick", "Bushwick"),
  ("carroll-gardens", "Carroll Gardens"),
  ("clinton-hill", "Clinton Hill"),
  ("cobble-hill", "Cobble Hill"),
  ("crown-heights", "Crown Heights"),
  ("downtown-brooklyn", "Downtown Brooklyn"),
  ("dumbo", "DUMBO"),
  ("flatbush", "Flatbush"),
  ("fort-greene", "Fort Greene"),
  ("gowanus", "Gowanus"),
  ("greenpoint", "Greenpoint"),
  ("kensington", "Kensington"),
  ("park-slope", "Park Slope"),
  ("prospect-heights", "Prospect Heights"),
  ("red-hook", "Red Hook"),
  ("sunset-park", "Sunset Park"),
  ("williamsburg", "Williamsburg"),
  ("windsor-terrace", "Windsor Terrace"),
  ("astoria", "Astoria"),
  ("flushing", "Flushing"),
  ("forest-hills", "Forest Hills"),
  ("jackson-heights", "Jackson Heights"),
  ("long-island-city", "Long Island City"),
  ("ridgewood", "Ridgewood"),
  ("sunnyside", "Sunnyside"),
  ("woodside", "Woodside"),
  ("east-harlem", "East Harlem"),
  ("hamilton-heights", "Hamilton Heights"),
  ("harlem", "Harlem"),
  ("inwood", "Inwood"),
  ("morningside-heights", "Morningside Heights"),
  ("washington-heights", "Washington Heights")]

/-- `VALID_NEIGHBORHOODS.get(slug)`. -/
def lookupValidNeighborhood (slug : String) : Option String :=
  (VALID_NEIGHBORHOODS.find? (fun p => p.1 == slug)).map Prod.snd

/-- Python `str.lower()` restricted to the ASCII range the data uses. -/
def lowerString (s : String) : String := String.mk (s.data.map Char.toLower)

/-- The first `(\d+)` capture of a string, or none. -/
def firstDigitRunOpt (s : String) : Option (List Char) :=
  let run := firstDigitRun s.data
  if run.isEmpty then none else some run

/-- The `filters` sub-document of a user-preference record. -/
structure UserFilters where
  neighborhoods : List String
  min_price : Int
  max_price : Int
  bed_rooms : List String
  no_fee : Bool
  geo_bounds : Option GeoBounds
  deriving DecidableEq, Repr

/-- A user-preference document (the parts `listing_matches_user` reads). -/
structure UserPrefs where
  filters : UserFilters
  deriving DecidableEq, Repr

/-- Neighborhood filter stage of `listing_matches_user`. -/
def neighborhood_check (filters : UserFilters) (listing : Listing) : Bool :=
  if filters.neighborhoods.isEmpty then true
  else if listing.neighborhood = "" then false
  else filters.neighborhoods.any (fun slug =>
    (match lookupAliases slug with
     | some aliases => aliases.contains listing.neighborhood
     | none => false) ||
    (match lookupValidNeighborhood slug with
     | some display => decide (¬ display = "" ∧ listing.neighborhood = display)
     | none => false))

/-- Price filter stage of `listing_matches_user`: the bounds are only consulted
when a positive maximum is configured. -/
def price_check (filters : UserFilters) (listing : Listing) : Bool :=
  if filters.max_price > 0 then
    match parse_price listing.price with
    | some p =>
        if (p : Int) > filters.max_price then false
        else if filters.min_price > 0 ∧ (p : Int) < filters.min_price then false
        else true
    | none => true
  else true

/-- Bed-type filter stage of `listing_matches_user`. -/
def bed_check (filters : UserFilters) (listing : Listing) : Bool :=
  if filters.bed_rooms.isEmpty then true
  else
    let listing_beds := lowerString listing.beds
    if listing_beds = "" ∨ listing_beds = "n/a" then true
    else filters.bed_rooms.any (fun bed_type =>
      (lowerString bed_type == "studio" &&
        decide ("studio".data <:+: listing_beds.data)) ||
      (match firstDigitRunOpt bed_type with
       | some run =>
           match firstDigitRunOpt listing_beds with
           | some lrun => decide (run = lrun)
           | none => false
       | none => false))

/-- Geo-bounds filter stage of `listing_matches_user`. -/
def geo_check (filters : UserFilters) (listing : Listing) : Bool :=
  match filters.geo_bounds with
  | none => true
  | some b =>
    match listing.longitude with
    | none => true
    | some lon =>
      match b.west_longitude, b.east_longitude with
      | some west, some east => decide (west ≤ lon ∧ lon ≤ east)
      | some _, none => true
      | none, _ => true

/-- `listing_matches_user(listing, user_prefs)`: the AND of the four filter
stages, in source order. The no-fee flag is deliberately not checked here
(it is enforced at the scrape-URL level). -/
def listing_matches_user (listing : Listing) (user_prefs : UserPrefs) : Bool :=
  neighborhood_check user_prefs.filters listing &&
  price_check user_prefs.filters listing &&
  bed_check user_prefs.filters listing &&
  geo_check user_prefs.filters listing

/-- **C3 counterexample.** A user with minimum price 1000 but unlimited
maximum (0) still matches a listing priced "$500": the minimum-price check is
nested under `max_price > 0` and never runs. -/
theorem C3_counterexample :
    parse_price "$500" = some 500 ∧
    (0 : Int) < 1000 ∧ (500 : Int) < 1000 ∧
    listing_matches_user
      ⟨"u", "a", "$500", "N/A", "N/A", "N/A", "East Village", "", none, none⟩
      ⟨⟨[], 1000, 0, [], false, none⟩⟩ = true := by
  decide

/-- **C3 (amended).** In the price-bounds check: an unparseable listing price
always passes; a zero configured maximum disables the whole price stage; and
when the configured maximum is positive, a user with positive minimum price
does not match a listing parsed below that minimum. -/
theorem C3_price_bounds :
    (∀ (fl : UserFilters) (l : Listing),
       parse_price l.price = none → price_check fl l = true) ∧
    (∀ (fl : UserFilters) (l : Listing),
       fl.max_price = 0 → price_check fl l = true) ∧
    (∀ (fl : UserFilters) (l : Listing) (p : Nat),
       0 < fl.min_price → 0 < fl.max_price → parse_price l.price = some p →
       (p : Int) < fl.min_price →
       listing_matches_user l ⟨fl⟩ = false) := by
  refine ⟨?_, ?_, ?_⟩
  · intro fl l h
    unfold price_check
    by_cases hm : fl.max_price > 0
    · rw [if_pos hm, h]
    · rw [if_neg hm]
  · intro fl l h
    unfold price_check
    rw [if_neg (by omega)]
  · intro fl l p hmn hmx hp hlt
    have hpc : price_check fl l = false := by
      unfold price_check
      rw [if_pos hmx, hp]
      show (if (p : Int) > fl.max_price then false
            else if fl.min_price > 0 ∧ (p : Int) < fl.min_price then false
            else true) = false
      by_cases hgt : (p : Int) > fl.max_price
      · rw [if_pos hgt]
      · rw [if_neg hgt, if_pos ⟨hmn, hlt⟩]
    unfold listing_matches_user
    rw [hpc]
    simp

/-- Witness for C3 at a concrete user (min 500, max 4000) and a "$100"
listing. -/
theorem C3_witness :
    listing_matches_user
      ⟨"u", "a", "$100", "N/A", "N/A", "N/A", "East Village", "", none, none⟩
      ⟨⟨[], 500, 4000, [], false, none⟩⟩ = false :=
  C3_price_bounds.2.2 ⟨[], 500, 4000, [], false, none⟩
    ⟨"u", "a", "$100", "N/A", "N/A", "N/A", "East Village", "", none, none⟩
    100 (by decide) (by decide) (by decide) (by decide)

/-- **C9 counterexample.** The bed descriptor "loft" carries no bed-count
information (no digits, not a studio, not the N/A sentinel), yet a user
filtering for 1-bedroom listings does not match it: only the empty and "n/a"
descriptors are treated as unknown. -/
theorem C9_counterexample :
    (∀ c ∈ ("loft" : String).data, c.isDigit = false) ∧
    ¬ ("studio".data <:+: (lowerString "loft").data) ∧
    lowerString "loft" ≠ "" ∧ lowerString "loft" ≠ "n/a" ∧
    bed_check ⟨[], 0, 0, ["1"], false, none⟩
      ⟨"u", "a", "$3,000", "loft", "N/A", "N/A", "East Village", "", none, none⟩
      = false ∧
    listing_matches_user
      ⟨"u", "a", "$3,000", "loft", "N/A", "N/A", "East Village", "", none, none⟩
      ⟨⟨[], 0, 0, ["1"], false, none⟩⟩ = false := by
  decide

/-- **C9 (amended).** With a non-empty user bed-type set, a listing whose bed
descriptor lowercases to "" or "n/a" (the scraper's unknown sentinels) always
passes the bed filter; other digit-free descriptors may disqualify. -/
theorem C9_bed_check :
    ∀ (fl : UserFilters) (l : Listing), fl.bed_rooms ≠ [] →
      (lowerString l.beds = "" ∨ lowerString l.beds = "n/a") →
      bed_check fl l = true := by
  intro fl l _ h
  unfold bed_check
  by_cases he : fl.bed_rooms.isEmpty
  · rw [if_pos he]
  · rw [if_neg he, if_pos h]

/-- Witness for C9: an "N/A" bed descriptor passes a 1-bedroom filter. -/
theorem C9_witness :
    bed_check ⟨[], 0, 0, ["1"], false, none⟩
      ⟨"u", "a", "$3,000", "N/A", "N/A", "N/A", "East Village", "", none, none⟩
      = true :=
  C9_bed_check ⟨[], 0, 0, ["1"], false, none⟩
    ⟨"u", "a", "$3,000", "N/A", "N/A", "N/A", "East Village", "", none, none⟩
    (by decide) (by decide)

/-! ### Notification log and dedup (`db.py`, `send_personalized_notifications`) -/

/-- One row of the `notification_log` collection. -/
structure NotifEntry where
  discord_user_id : String
  listing_url : String
  notification_type : String
  success : Bool
  deriving DecidableEq, Repr

/-- `was_notification_sent`: does any log row match the (subscriber, listing,
kind) triple?  The success flag is not part of the query. -/
def was_notification_sent (log : List NotifEntry)
    (discord_user_id listing_url notification_type : String) : Bool :=
  log.any (fun e => e.discord_user_id == discord_user_id &&
                    e.listing_url == listing_url &&
                    e.notification_type == notification_type)

/-- `log_notification`: append a row recording an attempt and its outcome. -/
def log_notification (log : List NotifEntry)
    (discord_user_id listing_url notification_type : String)
    (success : Bool) : List NotifEntry :=
  log ++ [⟨discord_user_id, listing_url, notification_type, success⟩]

/-- One send attempt of the personalized-notification loop: skip when the
dedup check fires, otherwise send (outcome `send_ok`) and log the attempt.
Returns the updated log and whether a DM was actually sent. -/
def attempt_send (log : List NotifEntry)
    (discord_user_id listing_url notification_type : String)
    (send_ok : Bool) : List NotifEntry × Bool :=
  if was_notification_sent log discord_user_id listing_url notification_type
  then (log, false)
  else (log_notification log discord_user_id listing_url notification_type
          send_ok, send_ok)

/-- **C4 counterexample.** After an attempt logged as a *failure*, the dedup
check already fires and the retry is suppressed, contradicting the claim that
a failure log entry permits resending. -/
theorem C4_counterexample :
    was_notification_sent
        (log_notification [] "123" "https://a" "new_listing" false)
        "123" "https://a" "new_listing" = true ∧
    attempt_send (log_notification [] "123" "https://a" "new_listing" false)
        "123" "https://a" "new_listing" true =
      (log_notification [] "123" "https://a" "new_listing" false, false) := by
  decide

/-- **C4 (amended).** For a fixed (subscriber, listing, kind) triple, once any
attempt has been logged — success or failure — a second attempt is suppressed
by the dedup check; an unlogged triple is never suppressed. -/
theorem C4_notification_dedup :
    ∀ (log : List NotifEntry) (uid url ntype : String) (ok retry_ok : Bool),
      was_notification_sent (log_notification log uid url ntype ok)
        uid url ntype = true ∧
      attempt_send (log_notification log uid url ntype ok) uid url ntype
        retry_ok = (log_notification log uid url ntype ok, false) ∧
      (was_notification_sent log uid url ntype = false →
        attempt_send log uid url ntype retry_ok =
          (log_notification log uid url ntype retry_ok, retry_ok)) := by
  intro log uid url ntype ok retry_ok
  have hsent : was_notification_sent (log_notification log uid url ntype ok)
      uid url ntype = true := by
    unfold was_notification_sent log_notification
    rw [List.any_append]
    simp
  refine ⟨hsent, ?_, ?_⟩
  · unfold attempt_send
    rw [if_pos hsent]
  · intro h
    unfold attempt_send
    rw [if_neg (by rw [h]; exact Bool.false_ne_true)]

/-- Witness for C4: an empty log does not suppress the first attempt. -/
theorem C4_witness :
    attempt_send [] "123" "https://a" "new_listing" true =
      (log_notification [] "123" "https://a" "new_listing" true, true) :=
  (C4_notification_dedup [] "123" "https://a" "new_listing" true true).2.2
    (by decide)

/-! ### Value scoring (`compute_value_score`) -/

/-- `max(0, min(10, x))`: clamp a sub-score into [0, 10]. -/
def clamp010 (x : ℚ) : ℚ := max 0 (min 10 x)

/-- The result of `compute_value_score`. -/
structure ValueScore where
  score : ℚ
  grade : String
  color : Nat
  deriving DecidableEq, Repr

/-- Price vs neighborhood median (40%): ratio ≤ 0.8 → 10, = 1.0 → 5,
≥ 1.2 → 0; neutral 5 without a positive median. -/
def price_vs_median_score (price : ℚ) (hood : String)
    (medians : String → Option ℚ) : ℚ :=
  match medians hood with
  | some median => if 0 < median then clamp010 ((1.2 - price / median) / 0.04) else 5
  | none => 5

/-- Price per sqft (30%): under $3 → 10, $5 → 5, over $7 → 0; neutral 5
without positive sqft data (same digit-run extraction as `parse_price`). -/
def price_per_sqft_score (price : ℚ) (sqft : String) : ℚ :=
  let run := firstDigitRun (stripCommas sqft.data)
  if run.isEmpty then 5
  else
    let sqft_val := digitsToNat run
    if 0 < sqft_val then clamp010 ((7 - price / (sqft_val : ℚ)) / 0.4) else 5

/-- Subway proximity (30%): 0 mi → 10, 0.25 mi → 5, 0.5+ mi → 0; neutral 5
with no nearby stations (the list holds the distances, closest first). -/
def subway_proximity_score (nearby_stations : List ℚ) : ℚ :=
  match nearby_stations with
  | [] => 5
  | closest :: _ => clamp010 ((0.5 - closest) / 0.05)

/-- Letter grade and embed color from the composite score. -/
def score_grade (score : ℚ) : String × Nat :=
  if 8 ≤ score then ("A", 0x2ECC71)
  else if 6 ≤ score then ("B", 0x27AE60)
  else if 4 ≤ score then ("C", 0xF39C12)
  else if 2 ≤ score then ("D", 0xE67E22)
  else ("F", 0xE74C3C)

/-- `compute_value_score(listing, medians, nearby_stations)`: weighted sum of
the three sub-scores rounded to one decimal, or none when the price is
unparseable. -/
def compute_value_score (listing : Listing) (medians : String → Option ℚ)
    (nearby_stations : List ℚ) : Option ValueScore :=
  match parse_price listing.price with
  | none => none
  | some price =>
      let score := pyRound1
        (price_vs_median_score (price : ℚ) listing.neighborhood medians * 0.4
          + price_per_sqft_score (price : ℚ) listing.sqft * 0.3
          + subway_proximity_score nearby_stations * 0.3)
      some ⟨score, (score_grade score).1, (score_grade score).2⟩

theorem clamp010_mono {x y : ℚ} (h : x ≤ y) : clamp010 x ≤ clamp010 y :=
  max_le_max (le_refl 0) (min_le_min (le_refl 10) h)

theorem div_const_mono {a b c : ℚ} (hc : 0 < c) (h : a ≤ b) : a / c ≤ b / c := by
  rw [div_eq_mul_inv, div_eq_mul_inv]
  exact mul_le_mul_of_nonneg_right h (le_of_lt (inv_pos.mpr hc))

theorem price_vs_median_score_anti {p₁ p₂ : ℚ} (hood : String)
    (medians : String → Option ℚ) (h : p₁ ≤ p₂) :
    price_vs_median_score p₂ hood medians ≤ price_vs_median_score p₁ hood medians := by
  unfold price_vs_median_score
  cases medians hood with
  | none => exact le_refl _
  | some m =>
      show (if 0 < m then clamp010 ((1.2 - p₂ / m) / 0.04) else 5)
        ≤ (if 0 < m then clamp010 ((1.2 - p₁ / m) / 0.04) else 5)
      by_cases h0 : 0 < m
      · rw [if_pos h0, if_pos h0]
        apply clamp010_mono
        have hd : p₁ / m ≤ p₂ / m := div_const_mono h0 h
        exact div_const_mono (by norm_num) (by linarith)
      · rw [if_neg h0, if_neg h0]

theorem price_per_sqft_score_anti {p₁ p₂ : ℚ} (sqft : String) (h : p₁ ≤ p₂) :
    price_per_sqft_score p₂ sqft ≤ price_per_sqft_score p₁ sqft := by
  unfold price_per_sqft_score
  by_cases hrun : (firstDigitRun (stripCommas sqft.data)).isEmpty
  · simp only [hrun, if_true]
    exact le_refl _
  · simp only [hrun, if_false]
    by_cases h0 : 0 < digitsToNat (firstDigitRun (stripCommas sqft.data))
    · rw [if_pos h0, if_pos h0]
      apply clamp010_mono
      have hq : (0 : ℚ) < (digitsToNat (firstDigitRun (stripCommas sqft.data)) : ℚ) := by
        exact_mod_cast h0
      have hd : p₁ / (digitsToNat (firstDigitRun (stripCommas sqft.data)) : ℚ)
          ≤ p₂ / (digitsToNat (firstDigitRun (stripCommas sqft.data)) : ℚ) :=
        div_const_mono hq h
      exact div_const_mono (by norm_num) (by linarith)
    · rw [if_neg h0, if_neg h0]

theorem subway_proximity_score_anti {d₁ d₂ : ℚ} (rest : List ℚ) (h : d₁ ≤ d₂) :
    subway_proximity_score (d₂ :: rest) ≤ subway_proximity_score (d₁ :: rest) := by
  unfold subway_proximity_score
  apply clamp010_mono
  exact div_const_mono (by norm_num) (by linarith)

/-- **C8.** The composite value score is monotone: holding the median map,
the neighborhood, the sqft text and the station list fixed, a cheaper parsed
price never scores lower; and holding everything else fixed, a larger nearest
station distance never scores higher. -/
theorem C8_value_score_monotone :
    (∀ (medians : String → Option ℚ) (nearby : List ℚ) (l₁ l₂ : Listing)
       (p₁ p₂ : ℕ),
       parse_price l₁.price = some p₁ → parse_price l₂.price = some p₂ →
       p₁ ≤ p₂ → l₁.neighborhood = l₂.neighborhood → l₁.sqft = l₂.sqft →
       ∃ v₁ v₂, compute_value_score l₁ medians nearby = some v₁ ∧
         compute_value_score l₂ medians nearby = some v₂ ∧
         v₂.score ≤ v₁.score) ∧
    (∀ (medians : String → Option ℚ) (l : Listing) (d₁ d₂ : ℚ) (rest : List ℚ)
       (v₁ v₂ : ValueScore), d₁ ≤ d₂ →
       compute_value_score l medians (d₁ :: rest) = some v₁ →
       compute_value_score l medians (d₂ :: rest) = some v₂ →
       v₂.score ≤ v₁.score) := by
  constructor
  · intro medians nearby l₁ l₂ p₁ p₂ hp1 hp2 hle hhood hsqft
    unfold compute_value_score
    rw [hp1, hp2, hhood, hsqft]
    refine ⟨_, _, rfl, rfl, ?_⟩
    show pyRound1 _ ≤ pyRound1 _
    apply pyRound1_mono
    have hq : (p₁ : ℚ) ≤ (p₂ : ℚ) := by exact_mod_cast hle
    have h1 := price_vs_median_score_anti l₂.neighborhood medians hq
    have h2 := price_per_sqft_score_anti l₂.sqft hq
    linarith
  · intro medians l d₁ d₂ rest v₁ v₂ hd hv1 hv2
    unfold compute_value_score at hv1 hv2
    cases hp : parse_price l.price with
    | none => rw [hp] at hv1; exact Option.noConfusion hv1
    | some p =>
        rw [hp] at hv1 hv2
        have e1 := Option.some.inj hv1
        have e2 := Option.some.inj hv2
        have hs1 : v₁.score = pyRound1
            (price_vs_median_score (p : ℚ) l.neighborhood medians * 0.4
              + price_per_sqft_score (p : ℚ) l.sqft * 0.3
              + subway_proximity_score (d₁ :: rest) * 0.3) := by
          rw [← e1]
        have hs2 : v₂.score = pyRound1
            (price_vs_median_score (p : ℚ) l.neighborhood medians * 0.4
              + price_per_sqft_score (p : ℚ) l.sqft * 0.3
              + subway_proximity_score (d₂ :: rest) * 0.3) := by
          rw [← e2]
        rw [hs1, hs2]
        apply pyRound1_mono
        have h3 := subway_proximity_score_anti rest hd
        linarith

/-- Witness for C8: with no median, sqft or station data, a $2,000 listing
scores at least as well as an otherwise identical $3,000 one. -/
theorem C8_witness :
    ∃ v₁ v₂,
      compute_value_score
        ⟨"u", "a", "$2,000", "1 bed", "1 bath", "N/A", "East Village", "", none, none⟩
        (fun _ => none) [] = some v₁ ∧
      compute_value_score
        ⟨"u", "a", "$3,000", "1 bed", "1 bath", "N/A", "East Village", "", none, none⟩
        (fun _ => none) [] = some v₂ ∧
      v₂.score ≤ v₁.score :=
  C8_value_score_monotone.1 (fun _ => none) []
    ⟨"u", "a", "$2,000", "1 bed", "1 bath", "N/A", "East Village", "", none, none⟩
    ⟨"u", "a", "$3,000", "1 bed", "1 bath", "N/A", "East Village", "", none, none⟩
    2000 3000 (by decide) (by decide) (by decide) rfl rfl

/-! ### Listing status checks and the stale-listing sweep -/

/-- The closed status enumeration of `check_listing_status`. -/
inductive ListingStatus
  | active
  | gone
  | unknown
  deriving DecidableEq, Repr

/-- What `fetch_with_status` yields: the HTTP status (none on a network
error) and the page text when a parseable body came back. -/
structure FetchResult where
  status_code : Option Nat
  page_text : Option String
  deriving DecidableEq, Repr

/-- The 200-OK body check: lowercased text mentioning removal phrases. -/
def pageSaysGone (text : String) : Bool :=
  decide ("no longer available".data <:+: (lowerString text).data) ||
  decide ("off market".data <:+: (lowerString text).data)

/-- `check_listing_status`: classify a listing fetch as active, gone or
unknown. -/
def check_listing_status (r : FetchResult) : ListingStatus :=
  match r.status_code with
  | none => ListingStatus.unknown
  | some status =>
      if status = 404 then ListingStatus.gone
      else if status = 403 then ListingStatus.unknown
      else if 400 ≤ status then ListingStatus.unknown
      else
        match r.page_text with
        | some text => if pageSaysGone text then ListingStatus.gone
                       else ListingStatus.active
        | none => ListingStatus.active

/-- The result of `geoclient_lookup` when the address parses. -/
structure GeoResult where
  cross_streets : Option String
  latitude : Option ℚ
  longitude : Option ℚ
  deriving DecidableEq, Repr

/-- Python float truthiness of an optional coordinate (`None` and `0.0` are
falsy). -/
def coordTruthy (o : Option ℚ) : Bool :=
  match o with
  | some q => decide (q ≠ 0)
  | none => false

/-- The external collaborators and configuration of one cleanup run: the page
fetcher, the geo lookup, whether a geoclient key is configured, the config,
and the current time. -/
structure CleanupCtx where
  fetch : String → FetchResult
  geo : String → Option GeoResult
  geoclient_key : Bool
  config : Config
  now : Int

/-- Dict lookup on the seen-listings store (first matching key). -/
def lookupSeen : List (String × SeenEntry) → String → Option SeenEntry
  | [], _ => none
  | p :: ps, url => if p.1 = url then some p.2 else lookupSeen ps url

/-- `del seen[url]`. -/
def deleteSeen : List (String × SeenEntry) → String → List (String × SeenEntry)
  | [], _ => []
  | p :: ps, url => if p.1 = url then deleteSeen ps url else p :: deleteSeen ps url

/-- In-place mutation of the entry stored under `url`. -/
def updateSeen : List (String × SeenEntry) → String → SeenEntry →
    List (String × SeenEntry)
  | [], _, _ => []
  | p :: ps, url, e =>
      if p.1 = url then (url, e) :: updateSeen ps url e
      else p :: updateSeen ps url e

/-- Collect entries whose last-scraped stamp is missing (or unparseable) or
older than the cutoff, paired with that stamp. -/
def collectStale (seen : List (String × SeenEntry)) (cutoff : Int) :
    List (String × Option Int) :=
  seen.filterMap (fun p =>
    match p.2.lastScraped with
    | none => some (p.1, none)
    | some ts => if ts < cutoff then some (p.1, some ts) else none)

/-- Sort key order: a missing stamp sorts before every present one
(Python's `x[1] or datetime.min`). -/
def staleBefore (a b : String × Option Int) : Bool :=
  match a.2, b.2 with
  | none, none => false
  | none, some _ => true
  | some _, none => false
  | some x, some y => decide (x < y)

def insertStale (x : String × Option Int) :
    List (String × Option Int) → List (String × Option Int)
  | [] => [x]
  | y :: ys => if staleBefore x y then x :: y :: ys else y :: insertStale x ys

/-- Stable ascending sort of the stale list (oldest / missing first). -/
def sortStale : List (String × Option Int) → List (String × Option Int)
  | [] => []
  | x :: xs => insertStale x (sortStale xs)

/-- State threaded through the cleanup loop: the store, the removal counter,
and the URLs whose live status has been checked so far. -/
structure CleanupState where
  seen : List (String × SeenEntry)
  removed : Nat
  checked : List String

/-- The status-check part of one cleanup iteration: gone deletes, active
refreshes last-scraped on the (possibly geo-backfilled) entry, unknown is a
no-op. -/
def statusPhase (ctx : CleanupCtx) (st : CleanupState) (url : String)
    (entry : SeenEntry) : CleanupState :=
  match check_listing_status (ctx.fetch url) with
  | ListingStatus.gone =>
      ⟨deleteSeen st.seen url, st.removed + 1, st.checked ++ [url]⟩
  | ListingStatus.active =>
      ⟨updateSeen st.seen url { entry with lastScraped := some ctx.now },
       st.removed, st.checked ++ [url]⟩
  | ListingStatus.unknown =>
      ⟨st.seen, st.removed, st.checked ++ [url]⟩

/-- The coordinates written into the entry when the geo lookup yields truthy
latitude and longitude. -/
def backfilledEntry (entry : SeenEntry) (geo : GeoResult) : SeenEntry :=
  if coordTruthy geo.latitude && coordTruthy geo.longitude then
    { entry with latitude := geo.latitude, longitude := geo.longitude }
  else entry

/-- One iteration of the cleanup loop over a stale URL: skip if the entry is
gone from the store, otherwise geo-backfill (possibly deleting an
out-of-bounds record and skipping its status check), then check status. -/
def cleanupStep (ctx : CleanupCtx) (st : CleanupState) (url : String) :
    CleanupState :=
  match lookupSeen st.seen url with
  | none => st
  | some entry =>
      if ctx.geoclient_key ∧ entry.latitude = none then
        match ctx.geo entry.address with
        | some geo =>
            if ¬ is_within_geo_bounds geo.longitude ctx.config then
              ⟨deleteSeen (updateSeen st.seen url (backfilledEntry entry geo))
                 url, st.removed + 1, st.checked⟩
            else
              statusPhase ctx
                ⟨updateSeen st.seen url (backfilledEntry entry geo),
                 st.removed, st.checked⟩ url (backfilledEntry entry geo)
        | none => statusPhase ctx st url entry
      else statusPhase ctx st url entry

/-- `cleanup_stale_listings(session, seen, config, geoclient_key, max_checks)`:
collect stale entries, order oldest/missing first, and process at most
`max_checks` of them. -/
def cleanup_stale_listings (ctx : CleanupCtx)
    (seen : List (String × SeenEntry)) (max_checks : Nat) : CleanupState :=
  let cutoff := ctx.now - 7 * 86400
  let stale := sortStale (collectStale seen cutoff)
  ((stale.take max_checks).map Prod.fst).foldl (cleanupStep ctx) ⟨seen, 0, []⟩

theorem lookupSeen_deleteSeen (s : List (String × SeenEntry)) (u v : String) :
    lookupSeen (deleteSeen s u) v = if v = u then none else lookupSeen s v := by
  induction s with
  | nil => by_cases h : v = u <;> simp [deleteSeen, lookupSeen, h]
  | cons p ps ih =>
      by_cases hp : p.1 = u
      · by_cases hv : v = u
        · subst hv
          simp [deleteSeen, lookupSeen, hp, ih]
        · simp [deleteSeen, lookupSeen, hp, hv, Ne.symm hv, ih]
      · by_cases hv : v = u
        · subst hv
          simp [deleteSeen, lookupSeen, hp, ih]
        · simp [deleteSeen, lookupSeen, hp, hv, ih]

theorem lookupSeen_updateSeen (s : List (String × SeenEntry)) (u v : String)
    (e : SeenEntry) :
    lookupSeen (updateSeen s u e) v =
      if v = u then (if (lookupSeen s u).isSome then some e else none)
      else lookupSeen s v := by
  induction s with
  | nil => by_cases h : v = u <;> simp [updateSeen, lookupSeen, h]
  | cons p ps ih =>
      by_cases hp : p.1 = u
      · by_cases hv : v = u
        · subst hv
          simp [updateSeen, lookupSeen, hp, ih]
        · simp [updateSeen, lookupSeen, hp, hv, Ne.symm hv, ih]
      · by_cases hv : v = u
        · subst hv
          simp [updateSeen, lookupSeen, hp, ih]
        · simp [updateSeen, lookupSeen, hp, hv, ih]

/-- Unfolding of `cleanupStep` when the entry is present. -/
theorem cleanupStep_eq_some (ctx : CleanupCtx) (st : CleanupState)
    (url : String) (entry : SeenEntry)
    (hl : lookupSeen st.seen url = some entry) :
    cleanupStep ctx st url =
      if ctx.geoclient_key = true ∧ entry.latitude = none then
        match ctx.geo entry.address with
        | some geo =>
            if ¬ is_within_geo_bounds geo.longitude ctx.config = true then
              ⟨deleteSeen (updateSeen st.seen url (backfilledEntry entry geo))
                 url, st.removed + 1, st.checked⟩
            else
              statusPhase ctx
                ⟨updateSeen st.seen url (backfilledEntry entry geo),
                 st.removed, st.checked⟩ url (backfilledEntry entry geo)
        | none => statusPhase ctx st url entry
      else statusPhase ctx st url entry := by
  unfold cleanupStep
  rw [hl]

/-- Unfolding of `cleanupStep` when the entry is absent. -/
theorem cleanupStep_eq_none (ctx : CleanupCtx) (st : CleanupState)
    (url : String) (hl : lookupSeen st.seen url = none) :
    cleanupStep ctx st url = st := by
  unfold cleanupStep
  rw [hl]

/-- A cleanup iteration over `u` never touches the entry stored under a
different key. -/
theorem cleanupStep_lookup_other (ctx : CleanupCtx) (st : CleanupState)
    (u v : String) (hvu : v ≠ u) :
    lookupSeen (cleanupStep ctx st u).seen v = lookupSeen st.seen v := by
  have hsp : ∀ (st' : CleanupState) (entry : SeenEntry),
      lookupSeen (statusPhase ctx st' u entry).seen v = lookupSeen st'.seen v := by
    intro st' entry
    unfold statusPhase
    cases check_listing_status (ctx.fetch u) with
    | gone =>
        show lookupSeen (deleteSeen st'.seen u) v = _
        rw [lookupSeen_deleteSeen, if_neg hvu]
    | active =>
        show lookupSeen (updateSeen st'.seen u _) v = _
        rw [lookupSeen_updateSeen, if_neg hvu]
    | unknown => rfl
  cases hl : lookupSeen st.seen u with
  | none => rw [cleanupStep_eq_none ctx st u hl]
  | some entry =>
      rw [cleanupStep_eq_some ctx st u entry hl]
      by_cases hgk : ctx.geoclient_key = true ∧ entry.latitude = none
      · rw [if_pos hgk]
        cases hgeo : ctx.geo entry.address with
        | none => exact hsp st entry
        | some geo =>
            dsimp only
            by_cases hw : is_within_geo_bounds geo.longitude ctx.config = true
            · rw [if_neg (by simp [hw])]
              rw [hsp]
              show lookupSeen (updateSeen st.seen u _) v = _
              rw [lookupSeen_updateSeen, if_neg hvu]
            · rw [if_pos (by simpa using hw)]
              show lookupSeen (deleteSeen (updateSeen st.seen u _) u) v = _
              rw [lookupSeen_deleteSeen, if_neg hvu,
                  lookupSeen_updateSeen, if_neg hvu]
      · rw [if_neg hgk]
        exact hsp st entry

/-- A cleanup iteration appends at most its own URL to the checked list. -/
theorem cleanupStep_checked (ctx : CleanupCtx) (st : CleanupState) (u : String) :
    (cleanupStep ctx st u).checked = st.checked ∨
    (cleanupStep ctx st u).checked = st.checked ++ [u] := by
  have hsp : ∀ (st' : CleanupState) (entry : SeenEntry),
      (statusPhase ctx st' u entry).checked = st'.checked ++ [u] := by
    intro st' entry
    unfold statusPhase
    cases check_listing_status (ctx.fetch u) with
    | gone => rfl
    | active => rfl
    | unknown => rfl
  cases hl : lookupSeen st.seen u with
  | none => rw [cleanupStep_eq_none ctx st u hl]; exact Or.inl rfl
  | some entry =>
      rw [cleanupStep_eq_some ctx st u entry hl]
      by_cases hgk : ctx.geoclient_key = true ∧ entry.latitude = none
      · rw [if_pos hgk]
        cases hgeo : ctx.geo entry.address with
        | none => exact Or.inr (hsp st entry)
        | some geo =>
            dsimp only
            by_cases hw : is_within_geo_bounds geo.longitude ctx.config = true
            · rw [if_neg (by simp [hw])]
              exact Or.inr (hsp ⟨updateSeen st.seen u (backfilledEntry entry geo),
                st.removed, st.checked⟩ (backfilledEntry entry geo))
            · rw [if_pos (by simpa using hw)]
              exact Or.inl rfl
      · rw [if_neg hgk]
        exact Or.inr (hsp st entry)

theorem foldl_lookup_other (ctx : CleanupCtx) (us : List String) :
    ∀ (st : CleanupState) (v : String), v ∉ us →
      lookupSeen ((us.foldl (cleanupStep ctx) st).seen) v = lookupSeen st.seen v := by
  induction us with
  | nil => intro st v _; rfl
  | cons u us ih =>
      intro st v hv
      rw [List.foldl_cons,
          ih (cleanupStep ctx st u) v (fun h => hv (List.mem_cons_of_mem _ h))]
      exact cleanupStep_lookup_other ctx st u v
        (fun h => hv (h ▸ List.mem_cons_self _ _))

theorem foldl_checked_mem (ctx : CleanupCtx) (us : List String) :
    ∀ (st : CleanupState) (w : String),
      w ∈ (us.foldl (cleanupStep ctx) st).checked → w ∈ st.checked ∨ w ∈ us := by
  induction us with
  | nil => intro st w h; exact Or.inl h
  | cons u us ih =>
      intro st w h
      rw [List.foldl_cons] at h
      rcases ih (cleanupStep ctx st u) w h with h' | h'
      · rcases cleanupStep_checked ctx st u with hc | hc
        · rw [hc] at h'; exact Or.inl h'
        · rw [hc] at h'
          rcases List.mem_append.mp h' with h'' | h''
          · exact Or.inl h''
          · right
            rw [List.mem_singleton.mp h'']
            exact List.mem_cons_self _ _
      · exact Or.inr (List.mem_cons_of_mem _ h')

theorem foldl_checked_length (ctx : CleanupCtx) (us : List String) :
    ∀ st : CleanupState,
      ((us.foldl (cleanupStep ctx) st).checked).length ≤
        st.checked.length + us.length := by
  induction us with
  | nil => intro st; simp
  | cons u us ih =>
      intro st
      rw [List.foldl_cons]
      have h1 := ih (cleanupStep ctx st u)
      have h2 : (cleanupStep ctx st u).checked.length ≤ st.checked.length + 1 := by
        rcases cleanupStep_checked ctx st u with hc | hc <;> rw [hc] <;> simp
      calc ((us.foldl (cleanupStep ctx) (cleanupStep ctx st u)).checked).length
          ≤ (cleanupStep ctx st u).checked.length + us.length := h1
        _ ≤ st.checked.length + 1 + us.length := by omega
        _ = st.checked.length + (u :: us).length := by
            rw [List.length_cons]; omega

theorem insertStale_perm (x : String × Option Int)
    (l : List (String × Option Int)) :
    List.Perm (insertStale x l) (x :: l) := by
  induction l with
  | nil => exact List.Perm.refl _
  | cons y ys ih =>
      unfold insertStale
      by_cases h : staleBefore x y
      · rw [if_pos h]
      · rw [if_neg h]
        exact (List.Perm.cons y ih).trans (List.Perm.swap x y ys)

theorem sortStale_perm (l : List (String × Option Int)) :
    List.Perm (sortStale l) l := by
  induction l with
  | nil => exact List.Perm.refl _
  | cons x xs ih =>
      unfold sortStale
      exact (insertStale_perm x (sortStale xs)).trans (List.Perm.cons x ih)

theorem collectStale_keys_sublist (seen : List (String × SeenEntry))
    (cutoff : Int) :
    ((collectStale seen cutoff).map Prod.fst).Sublist (seen.map Prod.fst) := by
  induction seen with
  | nil => exact List.Sublist.refl _
  | cons p ps ih =>
      unfold collectStale
      rw [List.filterMap_cons]
      cases hls : p.2.lastScraped with
      | none =>
          exact List.Sublist.cons₂ _ ih
      | some ts =>
          dsimp only
          by_cases hc : ts < cutoff
          · rw [if_pos hc]
            exact List.Sublist.cons₂ _ ih
          · rw [if_neg hc]
            exact List.Sublist.cons _ ih

/-- With unique store keys, the stale URLs processed by one run are distinct. -/
theorem cleanup_urls_nodup (ctx : CleanupCtx) (seen : List (String × SeenEntry))
    (max_checks : Nat) (h : (seen.map Prod.fst).Nodup) :
    ((((sortStale (collectStale seen (ctx.now - 7 * 86400))).take
        max_checks)).map Prod.fst).Nodup := by
  have h1 : ((collectStale seen (ctx.now - 7 * 86400)).map Prod.fst).Nodup :=
    (collectStale_keys_sublist seen _).nodup h
  have hperm := (sortStale_perm (collectStale seen (ctx.now - 7 * 86400))).map
    (Prod.fst (β := Option Int))
  have h2 : ((sortStale (collectStale seen (ctx.now - 7 * 86400))).map
      Prod.fst).Nodup := hperm.nodup_iff.mpr h1
  exact ((List.take_sublist _ _).map _).nodup h2

theorem backfilledEntry_fields (entry : SeenEntry) (geo : GeoResult) :
    (backfilledEntry entry geo).price = entry.price ∧
    (backfilledEntry entry geo).address = entry.address ∧
    (backfilledEntry entry geo).neighborhood = entry.neighborhood ∧
    (backfilledEntry entry geo).lastScraped = entry.lastScraped ∧
    (backfilledEntry entry geo).firstSeen = entry.firstSeen := by
  unfold backfilledEntry
  split_ifs <;> exact ⟨rfl, rfl, rfl, rfl, rfl⟩

theorem statusPhase_lookup (ctx : CleanupCtx) (st' : CleanupState) (url : String)
    (e : SeenEntry) (hl' : lookupSeen st'.seen url = some e) :
    (check_listing_status (ctx.fetch url) = ListingStatus.gone →
      lookupSeen (statusPhase ctx st' url e).seen url = none) ∧
    (check_listing_status (ctx.fetch url) = ListingStatus.active →
      lookupSeen (statusPhase ctx st' url e).seen url =
        some { e with lastScraped := some ctx.now }) ∧
    (check_listing_status (ctx.fetch url) = ListingStatus.unknown →
      lookupSeen (statusPhase ctx st' url e).seen url = some e) := by
  unfold statusPhase
  cases hs : check_listing_status (ctx.fetch url) with
  | gone =>
      refine ⟨fun _ => ?_, fun h => ListingStatus.noConfusion h,
        fun h => ListingStatus.noConfusion h⟩
      show lookupSeen (deleteSeen st'.seen url) url = none
      rw [lookupSeen_deleteSeen, if_pos rfl]
  | active =>
      refine ⟨fun h => ListingStatus.noConfusion h, fun _ => ?_,
        fun h => ListingStatus.noConfusion h⟩
      show lookupSeen (updateSeen st'.seen url _) url = _
      rw [lookupSeen_updateSeen, if_pos rfl, hl']
      rfl
  | unknown =>
      exact ⟨fun h => ListingStatus.noConfusion h,
        fun h => ListingStatus.noConfusion h, fun _ => hl'⟩

/-- Effect of one cleanup iteration on its own entry, when the URL got
status-checked. -/
theorem cleanupStep_spec (ctx : CleanupCtx) (st : CleanupState) (url : String)
    (entry : SeenEntry) (hl : lookupSeen st.seen url = some entry)
    (hnc : url ∉ st.checked)
    (hco : url ∈ (cleanupStep ctx st url).checked) :
    ∃ entry' : SeenEntry,
      entry'.price = entry.price ∧ entry'.address = entry.address ∧
      entry'.neighborhood = entry.neighborhood ∧
      entry'.lastScraped = entry.lastScraped ∧
      entry'.firstSeen = entry.firstSeen ∧
      ((ctx.geoclient_key = false ∨ entry.latitude ≠ none) → entry' = entry) ∧
      (check_listing_status (ctx.fetch url) = ListingStatus.gone →
        lookupSeen (cleanupStep ctx st url).seen url = none) ∧
      (check_listing_status (ctx.fetch url) = ListingStatus.active →
        lookupSeen (cleanupStep ctx st url).seen url =
          some { entry' with lastScraped := some ctx.now }) ∧
      (check_listing_status (ctx.fetch url) = ListingStatus.unknown →
        lookupSeen (cleanupStep ctx st url).seen url = some entry') := by
  rw [cleanupStep_eq_some ctx st url entry hl] at hco ⊢
  by_cases hgk : ctx.geoclient_key = true ∧ entry.latitude = none
  · rw [if_pos hgk] at hco ⊢
    cases hgeo : ctx.geo entry.address with
    | none =>
        exact ⟨entry, rfl, rfl, rfl, rfl, rfl, fun _ => rfl,
          statusPhase_lookup ctx st url entry hl⟩
    | some geo =>
        rw [hgeo] at hco
        dsimp only at hco ⊢
        by_cases hw : is_within_geo_bounds geo.longitude ctx.config = true
        · rw [if_neg (by simp [hw])] at hco ⊢
          obtain ⟨f1, f2, f3, f4, f5⟩ := backfilledEntry_fields entry geo
          refine ⟨backfilledEntry entry geo, f1, f2, f3, f4, f5, ?_, ?_⟩
          · rintro (hfk | hlat)
            · rw [hgk.1] at hfk; exact Bool.noConfusion hfk
            · exact absurd hgk.2 hlat
          · refine statusPhase_lookup ctx
              ⟨updateSeen st.seen url (backfilledEntry entry geo), st.removed,
               st.checked⟩ url (backfilledEntry entry geo) ?_
            show lookupSeen (updateSeen st.seen url _) url = _
            rw [lookupSeen_updateSeen, if_pos rfl, hl]
            rfl
        · rw [if_pos (by simpa using hw)] at hco
          exact absurd hco hnc
  · rw [if_neg hgk] at hco ⊢
    exact ⟨entry, rfl, rfl, rfl, rfl, rfl, fun _ => rfl,
      statusPhase_lookup ctx st url entry hl⟩

/-- **C5 (amended).** In every staleness-sweep run over a store with distinct
keys: at most `max_checks` records are status-checked, and for each checked
record — "gone" deletes it, "active" rewrites it with a refreshed last-scraped
stamp (all other fields as before, except coordinates that geo backfill may
have added first), and "unknown" leaves it present, unchanged apart from that
same possible geo backfill; with no geo key (or coordinates already present)
"active" changes only last-scraped and "unknown" changes nothing. No record
is ever deleted on an "unknown" status. -/
theorem C5_cleanup_stale_listings :
    ∀ (ctx : CleanupCtx) (seen : List (String × SeenEntry)) (max_checks : Nat),
      (seen.map Prod.fst).Nodup →
      (cleanup_stale_listings ctx seen max_checks).checked.length ≤ max_checks ∧
      (∀ url ∈ (cleanup_stale_listings ctx seen max_checks).checked,
        ∀ entry : SeenEntry, lookupSeen seen url = some entry →
          ∃ entry' : SeenEntry,
            entry'.price = entry.price ∧ entry'.address = entry.address ∧
            entry'.neighborhood = entry.neighborhood ∧
            entry'.lastScraped = entry.lastScraped ∧
            entry'.firstSeen = entry.firstSeen ∧
            ((ctx.geoclient_key = false ∨ entry.latitude ≠ none) →
              entry' = entry) ∧
            (check_listing_status (ctx.fetch url) = ListingStatus.gone →
              lookupSeen (cleanup_stale_listings ctx seen max_checks).seen url =
                none) ∧
            (check_listing_status (ctx.fetch url) = ListingStatus.active →
              lookupSeen (cleanup_stale_listings ctx seen max_checks).seen url =
                some { entry' with lastScraped := some ctx.now }) ∧
            (check_listing_status (ctx.fetch url) = ListingStatus.unknown →
              lookupSeen (cleanup_stale_listings ctx seen max_checks).seen url =
                some entry')) := by
  intro ctx seen max_checks hnd
  have hc : cleanup_stale_listings ctx seen max_checks =
      (((sortStale (collectStale seen (ctx.now - 7 * 86400))).take
          max_checks).map Prod.fst).foldl (cleanupStep ctx) ⟨seen, 0, []⟩ := rfl
  constructor
  · rw [hc]
    have h1 := foldl_checked_length ctx
      (((sortStale (collectStale seen (ctx.now - 7 * 86400))).take
          max_checks).map Prod.fst) ⟨seen, 0, []⟩
    have h2 : ((((sortStale (collectStale seen (ctx.now - 7 * 86400))).take
        max_checks).map Prod.fst)).length ≤ max_checks := by
      rw [List.length_map]
      exact List.length_take_le _ _
    simpa using le_trans h1 (by simp [h2])
  · intro url hmem entry hentry
    rw [hc] at hmem
    have hurl : url ∈ (((sortStale (collectStale seen
        (ctx.now - 7 * 86400))).take max_checks).map Prod.fst) := by
      rcases foldl_checked_mem ctx _ ⟨seen, 0, []⟩ url hmem with h | h
      · exact absurd h (List.not_mem_nil url)
      · exact h
    have hnd_urls := cleanup_urls_nodup ctx seen max_checks hnd
    obtain ⟨a, b, hab⟩ := List.append_of_mem hurl
    rw [hab] at hnd_urls
    have hna : url ∉ a := by
      intro ha
      have hdis := (List.nodup_append.mp hnd_urls).2.2
      exact hdis ha (List.mem_cons_self _ _)
    have hnb : url ∉ b :=
      (List.nodup_cons.mp (List.nodup_append.mp hnd_urls).2.1).1
    rw [hab, List.foldl_append, List.foldl_cons] at hmem
    rw [hc, hab, List.foldl_append, List.foldl_cons]
    have hl_a : lookupSeen ((a.foldl (cleanupStep ctx)
        (⟨seen, 0, []⟩ : CleanupState)).seen) url = some entry := by
      rw [foldl_lookup_other ctx a ⟨seen, 0, []⟩ url hna]
      exact hentry
    have hnc_a : url ∉ (a.foldl (cleanupStep ctx)
        (⟨seen, 0, []⟩ : CleanupState)).checked := by
      intro hin
      rcases foldl_checked_mem ctx a ⟨seen, 0, []⟩ url hin with h | h
      · exact List.not_mem_nil url h
      · exact hna h
    have hco : url ∈ (cleanupStep ctx
        (a.foldl (cleanupStep ctx) ⟨seen, 0, []⟩) url).checked := by
      rcases foldl_checked_mem ctx b _ url hmem with h | h
      · exact h
      · exact absurd h hnb
    obtain ⟨entry', f1, f2, f3, f4, f5, himp, hgone, hactive, hunknown⟩ :=
      cleanupStep_spec ctx (a.foldl (cleanupStep ctx) ⟨seen, 0, []⟩) url entry
        hl_a hnc_a hco
    have hlift : lookupSeen ((b.foldl (cleanupStep ctx)
        (cleanupStep ctx (a.foldl (cleanupStep ctx) ⟨seen, 0, []⟩) url)).seen)
          url =
        lookupSeen ((cleanupStep ctx
          (a.foldl (cleanupStep ctx) ⟨seen, 0, []⟩) url).seen) url :=
      foldl_lookup_other ctx b _ url hnb
    refine ⟨entry', f1, f2, f3, f4, f5, himp, ?_, ?_, ?_⟩
    · intro hs
      rw [hlift]
      exact hgone hs
    · intro hs
      rw [hlift]
      exact hactive hs
    · intro hs
      rw [hlift]
      exact hunknown hs

/-- Context of the concrete counterexample run: every status check yields
HTTP 500 ("unknown"), the geo lookup resolves to (40, 73), a geo key is
configured, and no geo bounds are set. -/
def demoCtx : CleanupCtx :=
  ⟨fun _ => ⟨some 500, none⟩, fun _ => some ⟨none, some 40, some 73⟩,
   true, ⟨4000, none⟩, 1000000⟩

/-- The stored record of the counterexample run: never re-confirmed (stale)
and with no coordinates yet. -/
def demoEntry : SeenEntry :=
  ⟨"$3,000", "123 Test St", "East Village", none, none, none, none⟩

/-- **C5 counterexample.** A record whose status check comes back "unknown"
is *not* left unchanged: the geo backfill that runs before the status check
has added coordinates to it. -/
theorem C5_counterexample :
    (cleanup_stale_listings demoCtx [("u", demoEntry)] 10).checked = ["u"] ∧
    check_listing_status (demoCtx.fetch "u") = ListingStatus.unknown ∧
    lookupSeen (cleanup_stale_listings demoCtx [("u", demoEntry)] 10).seen "u" =
      some ⟨"$3,000", "123 Test St", "East Village", none, none,
            some 40, some 73⟩ ∧
    (⟨"$3,000", "123 Test St", "East Village", none, none,
      some 40, some 73⟩ : SeenEntry) ≠ demoEntry := by
  refine ⟨?_, rfl, ?_, by decide⟩ <;> decide

/-- Witness for C5 on the concrete run above (its store has one key). -/
theorem C5_witness :
    (cleanup_stale_listings demoCtx [("u", demoEntry)] 10).checked.length ≤ 10 ∧
    (∀ url ∈ (cleanup_stale_listings demoCtx [("u", demoEntry)] 10).checked,
      ∀ entry : SeenEntry, lookupSeen [("u", demoEntry)] url = some entry →
        ∃ entry' : SeenEntry,
          entry'.price = entry.price ∧ entry'.address = entry.address ∧
          entry'.neighborhood = entry.neighborhood ∧
          entry'.lastScraped = entry.lastScraped ∧
          entry'.firstSeen = entry.firstSeen ∧
          ((demoCtx.geoclient_key = false ∨ entry.latitude ≠ none) →
            entry' = entry) ∧
          (check_listing_status (demoCtx.fetch url) = ListingStatus.gone →
            lookupSeen (cleanup_stale_listings demoCtx [("u", demoEntry)]
              10).seen url = none) ∧
          (check_listing_status (demoCtx.fetch url) = ListingStatus.active →
            lookupSeen (cleanup_stale_listings demoCtx [("u", demoEntry)]
              10).seen url = some { entry' with lastScraped := some demoCtx.now }) ∧
          (check_listing_status (demoCtx.fetch url) = ListingStatus.unknown →
            lookupSeen (cleanup_stale_listings demoCtx [("u", demoEntry)]
              10).seen url = some entry')) :=
  C5_cleanup_stale_listings demoCtx [("u", demoEntry)] 10 (by decide)

end ApartmentTracker
